import Mathlib

/-!
Verification development for the watchstock VS Code plugin core: the
technical-indicator library (`indicators` module) and the Pine-script style
expression parser/evaluator (`scriptParser` module).

Modelling conventions:
* JavaScript floating-point numbers are idealized as exact rationals (`ℚ`).
  Where the evaluator's own arithmetic can produce the JavaScript specials
  `Infinity`, `-Infinity` and `NaN` (the `new Function` evaluation path),
  they are modelled explicitly by the inductive `JNum`.
* All functions are total; the JavaScript scanning loops are modelled with an
  explicit fuel argument that structurally decreases, chosen large enough
  that it is never exhausted on the inputs considered.
* Translations follow the source line by line; any deliberate idealization is
  flagged in the corresponding doc comment.
-/

namespace Watchstock

/-! ### Indicator library (translated from the indicators module) -/

/-- Window `slice(i - period + 1, i + 1)` of the source, re-indexed with
`k = i - (period - 1)`, so the window is `slice(k, k + period)`. -/
def windowAt (l : List ℚ) (k period : ℕ) : List ℚ :=
  (l.drop k).take period

/-- Moving average: `sma(prices, period)` from the indicators module.
The source returns `[]` when `prices.length < period` and otherwise one
arithmetic mean per trailing window of size `period`. -/
def sma (prices : List ℚ) (period : ℕ) : List ℚ :=
  if prices.length < period then []
  else (List.range (prices.length + 1 - period)).map
    (fun k => (windowAt prices k period).sum / period)

/-- One EMA update: `(prices[i] - prev) * multiplier + prev`. -/
def emaStep (multiplier prev x : ℚ) : ℚ :=
  (x - prev) * multiplier + prev

/-- Exponential moving average `ema(prices, period)` from the indicators
module: empty input gives `[]`; when `prices.length ≥ period` the first value
is the SMA of the first `period` points and each later value is an
`emaStep` with multiplier `2 / (period + 1)`; otherwise the result list
stays empty. -/
def ema (prices : List ℚ) (period : ℕ) : List ℚ :=
  if prices.length = 0 then []
  else if period ≤ prices.length then
    List.scanl (emaStep (2 / ((period : ℚ) + 1)))
      ((prices.take period).sum / period) (prices.drop period)
  else []

/-- Consecutive differences `prices[i] - prices[i-1]` for `i = 1, …`. -/
def rsiDiffs (prices : List ℚ) : List ℚ :=
  List.zipWith (fun a b => a - b) (prices.drop 1) prices

/-- Per-step gains: positive differences, `0` otherwise. -/
def rsiGains (prices : List ℚ) : List ℚ :=
  (rsiDiffs prices).map (fun c => if 0 < c then c else 0)

/-- Per-step losses: absolute value of negative differences, `0` otherwise. -/
def rsiLosses (prices : List ℚ) : List ℚ :=
  (rsiDiffs prices).map (fun c => if c < 0 then -c else 0)

/-- Average gain over the trailing window of `period` differences. -/
def rsiAvgGain (prices : List ℚ) (period k : ℕ) : ℚ :=
  (windowAt (rsiGains prices) k period).sum / period

/-- Average loss over the trailing window of `period` differences. -/
def rsiAvgLoss (prices : List ℚ) (period k : ℕ) : ℚ :=
  (windowAt (rsiLosses prices) k period).sum / period

/-- Relative strength index `rsi(prices, period)` from the indicators module:
`[]` when `prices.length < period + 1`; otherwise one value per window of
`period` consecutive differences, `100` exactly when the average loss is
zero, `100 - 100 / (1 + avgGain / avgLoss)` otherwise. -/
def rsi (prices : List ℚ) (period : ℕ) : List ℚ :=
  if prices.length < period + 1 then []
  else (List.range ((rsiGains prices).length + 1 - period)).map
    (fun k =>
      if rsiAvgLoss prices period k = 0 then 100
      else 100 - 100 / (1 + rsiAvgGain prices period k / rsiAvgLoss prices period k))

/-- Entry of the `macd` result array. -/
structure MACDEntry where
  macd : ℚ
  sig : ℚ
  histogram : ℚ
deriving DecidableEq, Repr

/-- MACD `macd(prices, fast, slow, signal)` from the indicators module.
The field `sig` models the source's `signal` field. -/
def macdSeries (prices : List ℚ) (fastPeriod slowPeriod signalPeriod : ℕ) :
    List MACDEntry :=
  let fastEMA := ema prices fastPeriod
  let slowEMA := ema prices slowPeriod
  if fastEMA.length = 0 ∨ slowEMA.length = 0 then []
  else
    let macdLine := List.zipWith (fun a b => a - b) fastEMA slowEMA
    let signalLine := ema macdLine signalPeriod
    (List.range signalLine.length).map (fun i =>
      let mv := macdLine.getD (i + (macdLine.length - signalLine.length)) 0
      let sv := signalLine.getD i 0
      ⟨mv, sv, mv - sv⟩)

/-- Rational approximation of `Math.sqrt`, used only by the Bollinger-band
functions, which no claim exercises: `Nat.sqrt` on the scaled numerator.
The source uses binary floating point; only the existence of a deterministic
total stand-in matters here. -/
def ratSqrt (q : ℚ) : ℚ :=
  if q ≤ 0 then 0 else (Nat.sqrt (q.num.toNat * q.den) : ℚ) / (q.den : ℚ)

/-- Entry of the `bollingerBands` result array. -/
structure BollEntry where
  upper : ℚ
  middle : ℚ
  lower : ℚ
deriving DecidableEq, Repr

/-- Bollinger bands `bollingerBands(prices, period, stdDev)` from the
indicators module; per window `middle` is the mean and the bands are
`middle ± stdDev * populationStdDev`. -/
def bollingerBands (prices : List ℚ) (period : ℕ) (stdDev : ℚ) :
    List BollEntry :=
  if prices.length < period then []
  else (List.range (prices.length + 1 - period)).map (fun k =>
    let w := windowAt prices k period
    let middle := w.sum / period
    let variance := (w.map (fun price => (price - middle) * (price - middle))).sum / period
    let standardDeviation := ratSqrt variance
    ⟨middle + standardDeviation * stdDev, middle, middle - standardDeviation * stdDev⟩)

/-- Maximum of a list, `Math.max(...slice)` on a nonempty slice.  The empty
case cannot arise for the aligned, guarded inputs of the source (`spec §3`
alignment invariant); it is mapped to `0` here, where JavaScript would give
`-Infinity`. -/
def listMax : List ℚ → ℚ
  | [] => 0
  | x :: xs => xs.foldl max x

/-- Minimum of a list, `Math.min(...slice)`; empty case as in `listMax`. -/
def listMin : List ℚ → ℚ
  | [] => 0
  | x :: xs => xs.foldl min x

/-- Entry of the `kdj` result array. -/
structure KDJEntry where
  k : ℚ
  d : ℚ
  j : ℚ
deriving DecidableEq, Repr

/-- RSV series of `kdj`: per window `(close - lowestLow) / (highestHigh -
lowestLow) * 100`, with the flat-range boundary case defined as `50`. -/
def kdjRsv (highs lows closes : List ℚ) (period : ℕ) : List ℚ :=
  (List.range (closes.length + 1 - period)).map (fun kk =>
    let hh := listMax (windowAt highs kk period)
    let ll := listMin (windowAt lows kk period)
    let close := closes.getD (kk + period - 1) 0
    if hh = ll then 50 else ((close - ll) / (hh - ll)) * 100)

/-- Smoothing recursion of `kdj`, used for both K (seeded at `prev = 50`) and
D: each value is `(x + (smooth - 1) * prev) / smooth`. -/
def kdjSmooth (smooth : ℕ) : ℚ → List ℚ → List ℚ
  | _, [] => []
  | prev, x :: xs =>
    let v := (x + ((smooth : ℚ) - 1) * prev) / smooth
    v :: kdjSmooth smooth v xs

/-- KDJ `kdj(highs, lows, closes, period, kSmooth, dSmooth)` from the
indicators module: guard on the three lengths, RSV per window, K and D by
`kdjSmooth` both seeded at `50`, and `j = 3k - 2d`. -/
def kdj (highs lows closes : List ℚ) (period kSmooth dSmooth : ℕ) :
    List KDJEntry :=
  if highs.length < period ∨ lows.length < period ∨ closes.length < period then []
  else
    let rsvValues := kdjRsv highs lows closes period
    let kValues := kdjSmooth kSmooth 50 rsvValues
    let dValues := kdjSmooth dSmooth 50 kValues
    List.zipWith (fun k d => ⟨k, d, 3 * k - 2 * d⟩) kValues dValues

/-- Williams %R from the indicators module, with the flat-range boundary
defined as `-50`. -/
def williamsR (highs lows closes : List ℚ) (period : ℕ) : List ℚ :=
  if highs.length < period ∨ lows.length < period ∨ closes.length < period then []
  else (List.range (closes.length + 1 - period)).map (fun kk =>
    let hh := listMax (windowAt highs kk period)
    let ll := listMin (windowAt lows kk period)
    let close := closes.getD (kk + period - 1) 0
    if hh = ll then -50 else ((hh - close) / (hh - ll)) * (-100))

/-- Latest value of a series: `values[values.length - 1]`, `undefined` (here
`none`) on an empty series. -/
def latest {α : Type} (values : List α) : Option α :=
  values.getLast?

/-- Result of `crossover(series1, series2)`. -/
structure CrossInfo where
  bullishCross : Bool
  bearishCross : Bool
deriving DecidableEq, Repr

/-- Crossover detection from the indicators module: compares the last two
points of both series; both flags are `false` if either series is shorter
than 2. -/
def crossover (series1 series2 : List ℚ) : CrossInfo :=
  if series1.length < 2 ∨ series2.length < 2 then ⟨false, false⟩
  else
    let curr1 := series1.getD (series1.length - 1) 0
    let prev1 := series1.getD (series1.length - 2) 0
    let curr2 := series2.getD (series2.length - 1) 0
    let prev2 := series2.getD (series2.length - 2) 0
    ⟨decide (prev1 ≤ prev2 ∧ curr2 < curr1), decide (prev2 ≤ prev1 ∧ curr1 < curr2)⟩

/-! ### JavaScript number and value model

The script evaluator ultimately evaluates sanitized expression strings with
the host JavaScript engine (`new Function('return ' + safeExpr)`).  Numbers
there are IEEE doubles; they are idealized as exact rationals, with the
specials `Infinity`, `-Infinity` and `NaN` modelled explicitly, since the
evaluator can produce them (for example `1/0`). -/

inductive JNum where
  | fin (q : ℚ)
  | inf
  | ninf
  | nan
deriving Repr

/-- JavaScript addition on numbers. -/
def jadd : JNum → JNum → JNum
  | .nan, _ => .nan
  | _, .nan => .nan
  | .fin a, .fin b => .fin (a + b)
  | .fin _, .inf => .inf
  | .fin _, .ninf => .ninf
  | .inf, .fin _ => .inf
  | .ninf, .fin _ => .ninf
  | .inf, .inf => .inf
  | .ninf, .ninf => .ninf
  | .inf, .ninf => .nan
  | .ninf, .inf => .nan

/-- JavaScript negation on numbers. -/
def jneg : JNum → JNum
  | .nan => .nan
  | .fin a => .fin (-a)
  | .inf => .ninf
  | .ninf => .inf

/-- JavaScript subtraction on numbers. -/
def jsub (a b : JNum) : JNum := jadd a (jneg b)

/-- JavaScript multiplication on numbers (ignoring the sign of zero). -/
def jmul : JNum → JNum → JNum
  | .nan, _ => .nan
  | _, .nan => .nan
  | .fin a, .fin b => .fin (a * b)
  | .fin a, .inf => if 0 < a then .inf else if a < 0 then .ninf else .nan
  | .fin a, .ninf => if 0 < a then .ninf else if a < 0 then .inf else .nan
  | .inf, .fin b => if 0 < b then .inf else if b < 0 then .ninf else .nan
  | .ninf, .fin b => if 0 < b then .ninf else if b < 0 then .inf else .nan
  | .inf, .inf => .inf
  | .inf, .ninf => .ninf
  | .ninf, .inf => .ninf
  | .ninf, .ninf => .inf

/-- JavaScript division on numbers: division by zero produces a signed
infinity (or `NaN` for `0/0`), never an error. -/
def jdiv : JNum → JNum → JNum
  | .nan, _ => .nan
  | _, .nan => .nan
  | .fin a, .fin b =>
    if b ≠ 0 then .fin (a / b)
    else if 0 < a then .inf else if a < 0 then .ninf else .nan
  | .inf, .fin b => if 0 ≤ b then .inf else .ninf
  | .ninf, .fin b => if 0 ≤ b then .ninf else .inf
  | .fin _, .inf => .fin 0
  | .fin _, .ninf => .fin 0
  | .inf, .inf => .nan
  | .inf, .ninf => .nan
  | .ninf, .inf => .nan
  | .ninf, .ninf => .nan

/-- JavaScript `<` on numbers: false on any `NaN`. -/
def jltb : JNum → JNum → Bool
  | .nan, _ => false
  | _, .nan => false
  | .fin a, .fin b => decide (a < b)
  | .fin _, .inf => true
  | .inf, .fin _ => false
  | .ninf, .fin _ => true
  | .fin _, .ninf => false
  | .inf, .inf => false
  | .ninf, .ninf => false
  | .ninf, .inf => true
  | .inf, .ninf => false

/-- JavaScript `<=` on numbers: false on any `NaN`. -/
def jleb : JNum → JNum → Bool
  | .nan, _ => false
  | _, .nan => false
  | .fin a, .fin b => decide (a ≤ b)
  | .fin _, .inf => true
  | .inf, .fin _ => false
  | .ninf, .fin _ => true
  | .fin _, .ninf => false
  | .inf, .inf => true
  | .ninf, .ninf => true
  | .ninf, .inf => true
  | .inf, .ninf => false

/-- JavaScript number equality: false on any `NaN`. -/
def jeqb : JNum → JNum → Bool
  | .nan, _ => false
  | _, .nan => false
  | .fin a, .fin b => decide (a = b)
  | .inf, .inf => true
  | .ninf, .ninf => true
  | _, _ => false

/-- Truthiness of a JavaScript number. -/
def jnumTruthy : JNum → Bool
  | .nan => false
  | .fin q => decide (q ≠ 0)
  | .inf => true
  | .ninf => true

/-- JavaScript `Math.abs` on numbers. -/
def jabs : JNum → JNum
  | .nan => .nan
  | .fin q => .fin |q|
  | .inf => .inf
  | .ninf => .inf

/-- JavaScript `Math.floor` on numbers. -/
def jfloor : JNum → JNum
  | .nan => .nan
  | .fin q => .fin ((⌊q⌋ : ℤ) : ℚ)
  | .inf => .inf
  | .ninf => .ninf

/-- JavaScript `Math.ceil` on numbers. -/
def jceil : JNum → JNum
  | .nan => .nan
  | .fin q => .fin ((⌈q⌉ : ℤ) : ℚ)
  | .inf => .inf
  | .ninf => .ninf

/-- JavaScript `Math.round`: floor of `x + 1/2` (ties toward positive). -/
def jround : JNum → JNum
  | .nan => .nan
  | .fin q => .fin ((⌊q + 1/2⌋ : ℤ) : ℚ)
  | .inf => .inf
  | .ninf => .ninf

/-- JavaScript `Math.max` of two numbers (`NaN` wins). -/
def jmax2 (a b : JNum) : JNum :=
  match a, b with
  | .nan, _ => .nan
  | _, .nan => .nan
  | x, y => if jltb x y then y else x

/-- JavaScript `Math.min` of two numbers (`NaN` wins). -/
def jmin2 (a b : JNum) : JNum :=
  match a, b with
  | .nan, _ => .nan
  | _, .nan => .nan
  | x, y => if jltb y x then y else x

/-- JavaScript value produced or consumed by the script evaluator: a number,
boolean, string, array, or `undefined`. -/
inductive JSVal where
  | num (n : JNum)
  | bool (b : Bool)
  | str (s : String)
  | arr (elems : List JSVal)
  | undefined
deriving Repr

/-- Truthiness of a JavaScript value. -/
def toBool : JSVal → Bool
  | .num n => jnumTruthy n
  | .bool b => b
  | .str s => decide (s ≠ "")
  | .arr _ => true
  | .undefined => false

/-- JavaScript `||`: returns the left operand if truthy, else the right. -/
def jsOrVal (a b : JSVal) : JSVal := if toBool a then a else b

/-- JavaScript `&&`: returns the left operand if falsy, else the right. -/
def jsAndVal (a b : JSVal) : JSVal := if toBool a then b else a

/-- Repeatedly divides `n` by the prime `f`, returning the remaining factor
and the number of divisions (fuelled, structural). -/
def stripPow : ℕ → ℕ → ℕ → ℕ × ℕ
  | 0, n, _ => (n, 0)
  | fuel + 1, n, f =>
    if 1 < n ∧ n % f = 0 then
      let r := stripPow fuel (n / f) f
      (r.1, r.2 + 1)
    else (n, 0)

/-- Pads a decimal digit string on the left with zeros up to width `k`. -/
def padZeros (s : String) (k : ℕ) : String :=
  String.mk (List.replicate (k - s.length) '0') ++ s

/-- Rendering of a finite number for substitution back into the expression
text.  JavaScript prints the shortest decimal that round-trips; for
denominators of the form `2^a * 5^b` this model prints the same exact
decimal.  Other denominators cannot be hit by exact decimal inputs in
JavaScript; the model prints them as a parenthesized fraction `(n/d)`,
which re-parses to the same value, keeping the substitution round-trip
value-exact just as in JavaScript. -/
def ratToString (q : ℚ) : String :=
  let sign := if q < 0 then "-" else ""
  let n := q.num.natAbs
  let d := q.den
  let r2 := stripPow d d 2
  let r5 := stripPow r2.1 r2.1 5
  if r5.1 = 1 then
    let k := max r2.2 r5.2
    if k = 0 then sign ++ Nat.repr n
    else
      let scaled := n * 10 ^ k / d
      sign ++ Nat.repr (scaled / 10 ^ k) ++ "." ++ padZeros (Nat.repr (scaled % 10 ^ k)) k
  else sign ++ "(" ++ Nat.repr n ++ "/" ++ Nat.repr d ++ ")"

/-- Rendering `String(x)` of a number, as used by `processFunctionCalls`. -/
def jnumToString : JNum → String
  | .fin q => ratToString q
  | .inf => "Infinity"
  | .ninf => "-Infinity"
  | .nan => "NaN"

/-- Rendering `String(x)` of a value (fuelled on array nesting depth):
arrays are joined with commas and `undefined` elements print empty,
booleans and `undefined` print their names. -/
def jsToStringF : ℕ → JSVal → String
  | _, .num n => jnumToString n
  | _, .bool true => "true"
  | _, .bool false => "false"
  | _, .str s => s
  | _, .undefined => "undefined"
  | 0, .arr _ => ""
  | fuel + 1, .arr xs => String.intercalate "," (xs.map (fun x =>
      match x with
      | .undefined => ""
      | v => jsToStringF fuel v))

/-- Rendering `String(x)` of a value, as used by `processFunctionCalls` when
a builtin's result is substituted back into the expression text.  Values in
this system nest arrays at most a few levels deep; a depth bound of 100
never binds. -/
def jsToString (v : JSVal) : String := jsToStringF 100 v

/-- Rendering `JSON.stringify(x)` (fuelled on array nesting depth):
numbers as decimals, arrays in brackets, strings quoted, non-finite numbers
and `undefined` elements as `null`. -/
def jsonStringifyF : ℕ → JSVal → String
  | _, .num (.fin q) => ratToString q
  | _, .num _ => "null"
  | _, .bool true => "true"
  | _, .bool false => "false"
  | _, .str s => "\"" ++ s ++ "\""
  | _, .undefined => "undefined"
  | 0, .arr _ => "[]"
  | fuel + 1, .arr xs => "[" ++ String.intercalate "," (xs.map (fun x =>
      match x with
      | .undefined => "null"
      | v => jsonStringifyF fuel v)) ++ "]"

/-- Rendering `JSON.stringify(x)`, as used by the builtin-variable
substitution step; a top-level `undefined` is coerced to the text
`"undefined"` by the enclosing `String.replace`. -/
def jsonStringify (v : JSVal) : String := jsonStringifyF 100 v

/-! ### Character classes and sanitization -/

/-- Decimal digit test, by character code. -/
def isDigitC (c : Char) : Bool := 48 ≤ c.toNat && c.toNat ≤ 57

/-- Whitespace test (space, tab, newlines), the JavaScript regex `\s` class
restricted to ASCII, which is all the engine ever feeds it. -/
def isSpaceC (c : Char) : Bool :=
  c.toNat = 32 || c.toNat = 9 || c.toNat = 10 || c.toNat = 13 ||
  c.toNat = 11 || c.toNat = 12

/-- Word-character test, the JavaScript regex `\w` class
(letters, digits, underscore). -/
def isWordC (c : Char) : Bool :=
  isDigitC c || (65 ≤ c.toNat && c.toNat ≤ 90) ||
  (97 ≤ c.toNat && c.toNat ≤ 122) || c.toNat = 95

/-- Character filter of `safeEval`: the source keeps exactly the characters
matching `[0-9+\-*/.()\s<>=!&|\[\],"]` and deletes everything else
(in particular all letters). -/
def isAllowedC (c : Char) : Bool :=
  isDigitC c || isSpaceC c || c = '+' || c = '-' || c = '*' || c = '/' ||
  c = '.' || c = '(' || c = ')' || c = '<' || c = '>' || c = '=' ||
  c = '!' || c = '&' || c = '|' || c = '[' || c = ']' || c = ',' || c = '"'

/-- The sanitization step of `safeEval`. -/
def sanitize (s : List Char) : List Char := s.filter isAllowedC

/-- Trim whitespace from both ends of a character list (JavaScript
`String.prototype.trim` on the characters the engine uses). -/
def trimC (s : List Char) : List Char :=
  ((s.dropWhile isSpaceC).reverse.dropWhile isSpaceC).reverse

/-! ### Tokenizer for the sanitized expression text

This models what the host JavaScript parser accepts once `safeEval` has
removed every character outside its whitelist.  Lone `=`, `&`, `|`
(assignment and bitwise operators) are treated as syntax errors; no code
path of this system produces them and no claim depends on them. -/

inductive Tok where
  | num (q : ℚ)
  | lit (s : String)
  | lparen
  | rparen
  | lbrack
  | rbrack
  | comma
  | orT
  | andT
  | eqT
  | neT
  | seqT
  | sneT
  | ltT
  | gtT
  | leT
  | geT
  | plusT
  | minusT
  | starT
  | slashT
  | bangT
deriving Repr, DecidableEq

/-- Numeric value of a digit character. -/
def digitVal (c : Char) : ℕ := c.toNat - 48

/-- Reads a maximal run of digits, returning value, digit count and rest. -/
def readDigitsCnt : ℕ → List Char → ℕ → ℕ → ℕ × ℕ × List Char
  | 0, cs, acc, cnt => (acc, cnt, cs)
  | _ + 1, [], acc, cnt => (acc, cnt, [])
  | f + 1, c :: cs, acc, cnt =>
    if isDigitC c then readDigitsCnt f cs (acc * 10 + digitVal c) (cnt + 1)
    else (acc, cnt, c :: cs)

/-- Scans a numeric literal `digits [. digits]` (also `.digits` and
`digits.`), returning its exact rational value and the remaining input. -/
def scanNum (cs : List Char) : ℚ × List Char :=
  let r := readDigitsCnt (cs.length + 1) cs 0 0
  match r.2.2 with
  | '.' :: rest =>
    let r2 := readDigitsCnt (rest.length + 1) rest 0 0
    ((r.1 : ℚ) + (r2.1 : ℚ) / 10 ^ r2.2.1, r2.2.2)
  | other => ((r.1 : ℚ), other)

/-- Reads a string literal body up to the closing quote. -/
def readLit : ℕ → List Char → List Char → Option (String × List Char)
  | 0, _, _ => none
  | _ + 1, [], _ => none
  | f + 1, c :: cs, acc =>
    if c = '"' then some (String.mk acc.reverse, cs) else readLit f cs (c :: acc)

/-- Tokenizer over the sanitized character set (fuelled; one unit of fuel
per token suffices since every token consumes at least one character). -/
def tokenizeF : ℕ → List Char → Option (List Tok)
  | 0, _ => none
  | _ + 1, [] => some []
  | f + 1, c :: cs =>
    if isSpaceC c then tokenizeF f cs
    else if isDigitC c then
      let r := scanNum (c :: cs)
      (tokenizeF f r.2).map (fun ts => .num r.1 :: ts)
    else if c = '.' then
      match cs with
      | d :: _ =>
        if isDigitC d then
          let r := scanNum (c :: cs)
          (tokenizeF f r.2).map (fun ts => .num r.1 :: ts)
        else none
      | [] => none
    else if c = '"' then
      match readLit (cs.length + 1) cs [] with
      | some (s, rest) => (tokenizeF f rest).map (fun ts => .lit s :: ts)
      | none => none
    else if c = '(' then (tokenizeF f cs).map (fun ts => .lparen :: ts)
    else if c = ')' then (tokenizeF f cs).map (fun ts => .rparen :: ts)
    else if c = '[' then (tokenizeF f cs).map (fun ts => .lbrack :: ts)
    else if c = ']' then (tokenizeF f cs).map (fun ts => .rbrack :: ts)
    else if c = ',' then (tokenizeF f cs).map (fun ts => .comma :: ts)
    else if c = '+' then (tokenizeF f cs).map (fun ts => .plusT :: ts)
    else if c = '-' then (tokenizeF f cs).map (fun ts => .minusT :: ts)
    else if c = '*' then (tokenizeF f cs).map (fun ts => .starT :: ts)
    else if c = '/' then (tokenizeF f cs).map (fun ts => .slashT :: ts)
    else if c = '&' then
      match cs with
      | '&' :: rest => (tokenizeF f rest).map (fun ts => .andT :: ts)
      | _ => none
    else if c = '|' then
      match cs with
      | '|' :: rest => (tokenizeF f rest).map (fun ts => .orT :: ts)
      | _ => none
    else if c = '=' then
      match cs with
      | '=' :: '=' :: rest => (tokenizeF f rest).map (fun ts => .seqT :: ts)
      | '=' :: rest => (tokenizeF f rest).map (fun ts => .eqT :: ts)
      | _ => none
    else if c = '!' then
      match cs with
      | '=' :: '=' :: rest => (tokenizeF f rest).map (fun ts => .sneT :: ts)
      | '=' :: rest => (tokenizeF f rest).map (fun ts => .neT :: ts)
      | _ => (tokenizeF f cs).map (fun ts => .bangT :: ts)
    else if c = '<' then
      match cs with
      | '=' :: rest => (tokenizeF f rest).map (fun ts => .leT :: ts)
      | _ => (tokenizeF f cs).map (fun ts => .ltT :: ts)
    else if c = '>' then
      match cs with
      | '=' :: rest => (tokenizeF f rest).map (fun ts => .geT :: ts)
      | _ => (tokenizeF f cs).map (fun ts => .gtT :: ts)
    else none

/-! ### JavaScript coercions and operator semantics -/

/-- Parses a complete unsigned numeric literal, if the whole input is one. -/
def parseNumLit (cs : List Char) : Option ℚ :=
  match cs with
  | [] => none
  | c :: rest =>
    if isDigitC c || (c = '.' && (match rest with
        | d :: _ => isDigitC d
        | [] => false)) then
      let r := scanNum cs
      if r.2 = [] then some r.1 else none
    else none

/-- Parses the parenthesized fraction form `(n/d)` produced by
`ratToString` for denominators without an exact decimal expansion, so the
string round trip stays value-exact. -/
def parseFracLit (cs : List Char) : Option ℚ :=
  match cs with
  | '(' :: rest =>
    let r := readDigitsCnt (rest.length + 1) rest 0 0
    (match r.2.2 with
     | '/' :: rest2 =>
       let r2 := readDigitsCnt (rest2.length + 1) rest2 0 0
       (match r2.2.2 with
        | [')'] => if 0 < r.2.1 ∧ 0 < r2.2.1 then some ((r.1 : ℚ) / (r2.1 : ℚ)) else none
        | _ => none)
     | _ => none)
  | _ => none

/-- JavaScript `ToNumber` on a string: trimmed empty is `0`, a decimal
literal (optionally signed) is its value, anything else is `NaN`. -/
def strToNum (s : String) : JNum :=
  let t := trimC s.data
  match t with
  | [] => .fin 0
  | '-' :: rest =>
    (match parseNumLit rest with
     | some q => .fin (-q)
     | none =>
       match parseFracLit rest with
       | some q => .fin (-q)
       | none => if rest = "Infinity".data then .inf else .nan)
  | '+' :: rest =>
    (match parseNumLit rest with
     | some q => .fin q
     | none => .nan)
  | _ =>
    match parseNumLit t with
    | some q => .fin q
    | none =>
      match parseFracLit t with
      | some q => .fin q
      | none => if t = "Infinity".data then .inf else .nan

/-- JavaScript `ToPrimitive`: arrays become their join string, everything
else is already primitive. -/
def toPrimitive : JSVal → JSVal
  | .arr xs => .str (jsToString (.arr xs))
  | v => v

/-- JavaScript `ToNumber` on a value. -/
def toNumber : JSVal → JNum
  | .num n => n
  | .bool true => .fin 1
  | .bool false => .fin 0
  | .undefined => .nan
  | .str s => strToNum s
  | .arr xs => strToNum (jsToString (.arr xs))

/-- Lexicographic string comparison by character code (JavaScript `<` on
two strings). -/
def strLtC : List Char → List Char → Bool
  | [], [] => false
  | [], _ :: _ => true
  | _ :: _, [] => false
  | a :: as, b :: bs =>
    if a.toNat < b.toNat then true
    else if b.toNat < a.toNat then false
    else strLtC as bs

/-- JavaScript strict equality `===`: different types (and distinct array
literals) are never equal. -/
def strictEq : JSVal → JSVal → Bool
  | .num a, .num b => jeqb a b
  | .str a, .str b => decide (a = b)
  | .bool a, .bool b => decide (a = b)
  | .undefined, .undefined => true
  | _, _ => false

/-- Loose equality against a number (right operand coerced as JavaScript
`==` prescribes). -/
def looseEqNum (n : JNum) : JSVal → Bool
  | .num b => jeqb n b
  | .str s => jeqb n (strToNum s)
  | .bool true => jeqb n (.fin 1)
  | .bool false => jeqb n (.fin 0)
  | .undefined => false
  | .arr xs => jeqb n (strToNum (jsToString (.arr xs)))

/-- JavaScript loose equality `==` restricted to the value types of this
system (there is no `null` and no object other than arrays, which compare
by reference and hence are never equal as distinct literals). -/
def looseEq : JSVal → JSVal → Bool
  | .num a, b => looseEqNum a b
  | a, .num b => looseEqNum b a
  | .bool a, b => looseEqNum (if a then .fin 1 else .fin 0) b
  | a, .bool b => looseEqNum (if b then .fin 1 else .fin 0) a
  | .str a, .str b => decide (a = b)
  | .str a, .arr xs => decide (a = jsToString (.arr xs))
  | .arr xs, .str b => decide (jsToString (.arr xs) = b)
  | .undefined, .undefined => true
  | .arr _, .arr _ => false
  | .undefined, .arr _ => false
  | .arr _, .undefined => false
  | .undefined, .str _ => false
  | .str _, .undefined => false

/-- JavaScript relational comparison: string-to-string comparisons are
lexicographic, everything else is numeric (false on `NaN`). -/
def jsLt (a b : JSVal) : Bool :=
  match toPrimitive a, toPrimitive b with
  | .str x, .str y => strLtC x.data y.data
  | x, y => jltb (toNumber x) (toNumber y)

/-- JavaScript `<=` (defined as "not `>`", false on `NaN`). -/
def jsLe (a b : JSVal) : Bool :=
  match toPrimitive a, toPrimitive b with
  | .str x, .str y => !strLtC y.data x.data
  | x, y => jleb (toNumber x) (toNumber y)

/-- JavaScript `+`: string concatenation if either primitive operand is a
string, numeric addition otherwise. -/
def jsAdd (a b : JSVal) : JSVal :=
  match toPrimitive a, toPrimitive b with
  | .str x, y => .str (x ++ jsToString y)
  | x, .str y => .str (jsToString x ++ y)
  | x, y => .num (jadd (toNumber x) (toNumber y))

/-- Binary operators of the expression grammar. -/
inductive BinT where
  | orB
  | andB
  | eqB
  | neB
  | seqB
  | sneB
  | ltB
  | gtB
  | leB
  | geB
  | addB
  | subB
  | mulB
  | divB
  | commaB
deriving Repr, DecidableEq

/-- Semantics of one binary operator application. -/
def applyBin : BinT → JSVal → JSVal → JSVal
  | .orB, a, b => jsOrVal a b
  | .andB, a, b => jsAndVal a b
  | .eqB, a, b => .bool (looseEq a b)
  | .neB, a, b => .bool (!looseEq a b)
  | .seqB, a, b => .bool (strictEq a b)
  | .sneB, a, b => .bool (!strictEq a b)
  | .ltB, a, b => .bool (jsLt a b)
  | .gtB, a, b => .bool (jsLt b a)
  | .leB, a, b => .bool (jsLe a b)
  | .geB, a, b => .bool (jsLe b a)
  | .addB, a, b => jsAdd a b
  | .subB, a, b => .num (jsub (toNumber a) (toNumber b))
  | .mulB, a, b => .num (jmul (toNumber a) (toNumber b))
  | .divB, a, b => .num (jdiv (toNumber a) (toNumber b))
  | .commaB, _, b => b

/-- Operator recognized at a given precedence level (level 11 comma
sequence, 10 `||`, 9 `&&`, 8 equality, 7 relational, 6 additive,
5 multiplicative). -/
def opAtLevel : ℕ → Tok → Option BinT
  | 11, .comma => some .commaB
  | 10, .orT => some .orB
  | 9, .andT => some .andB
  | 8, .eqT => some .eqB
  | 8, .neT => some .neB
  | 8, .seqT => some .seqB
  | 8, .sneT => some .sneB
  | 7, .ltT => some .ltB
  | 7, .gtT => some .gtB
  | 7, .leT => some .leB
  | 7, .geT => some .geB
  | 6, .plusT => some .addB
  | 6, .minusT => some .subB
  | 5, .starT => some .mulB
  | 5, .slashT => some .divB
  | _, _ => none

/-- Job of the combined parser-evaluator: parse an expression at a level,
continue a left-associative operator chain, or collect array elements.
Since the sanitized grammar has no side effects and no short-circuit
observable, parsing and evaluation are fused. -/
inductive PJob where
  | expr (lvl : ℕ) (ts : List Tok)
  | rest (lvl : ℕ) (acc : JSVal) (ts : List Tok)
  | elems (acc : List JSVal) (ts : List Tok)

/-- Recursive-descent parser-evaluator over the token list (fuelled on
recursion depth; `none` is a syntax error).  Unary `!`, `-`, `+` sit at
level 4, primaries (numbers, strings, parentheses, array literals) at the
bottom; array elements parse at level 10 so that commas separate them. -/
def parseF : ℕ → PJob → Option (JSVal × List Tok)
  | 0, _ => none
  | f + 1, .expr lvl ts =>
    if 5 ≤ lvl then
      match parseF f (.expr (lvl - 1) ts) with
      | some (v, ts1) => parseF f (.rest lvl v ts1)
      | none => none
    else if lvl = 4 then
      match ts with
      | .bangT :: rest =>
        (parseF f (.expr 4 rest)).map (fun r => (JSVal.bool (!toBool r.1), r.2))
      | .minusT :: rest =>
        (parseF f (.expr 4 rest)).map (fun r => (JSVal.num (jneg (toNumber r.1)), r.2))
      | .plusT :: rest =>
        (parseF f (.expr 4 rest)).map (fun r => (JSVal.num (toNumber r.1), r.2))
      | _ => parseF f (.expr 3 ts)
    else
      match ts with
      | .num q :: rest => some (.num (.fin q), rest)
      | .lit s :: rest => some (.str s, rest)
      | .lparen :: rest =>
        (match parseF f (.expr 11 rest) with
         | some (v, .rparen :: rest2) => some (v, rest2)
         | _ => none)
      | .lbrack :: .rbrack :: rest => some (.arr [], rest)
      | .lbrack :: rest => parseF f (.elems [] rest)
      | _ => none
  | f + 1, .rest lvl acc ts =>
    (match ts with
     | t :: rest =>
       (match opAtLevel lvl t with
        | some op =>
          (match parseF f (.expr (lvl - 1) rest) with
           | some (v, ts2) => parseF f (.rest lvl (applyBin op acc v) ts2)
           | none => none)
        | none => some (acc, ts))
     | [] => some (acc, []))
  | f + 1, .elems acc ts =>
    match parseF f (.expr 10 ts) with
    | some (v, .comma :: .rbrack :: rest) => some (.arr (acc ++ [v]), rest)
    | some (v, .comma :: rest) => parseF f (.elems (acc ++ [v]) rest)
    | some (v, .rbrack :: rest) => some (.arr (acc ++ [v]), rest)
    | _ => none

/-- Tokens that can begin an expression: literals, opening brackets and
the unary operators.  A token list starting with any other token (for
example a bare comparison operator) is a syntax error for every
precedence level of `parseF`. -/
def startsExpr : Tok → Bool
  | .num _ => true
  | .lit _ => true
  | .lparen => true
  | .lbrack => true
  | .bangT => true
  | .minusT => true
  | .plusT => true
  | _ => false

/-- Evaluation of a sanitized expression text by the host engine
(`new Function('return ' + text)` applied to no arguments): empty input
returns `undefined`, a parse failure or trailing garbage is a syntax error
(`none`). -/
def jsEvalString (cs : List Char) : Option JSVal :=
  match tokenizeF (cs.length + 1) cs with
  | none => none
  | some [] => some .undefined
  | some ts =>
    match parseF (16 * (ts.length + 1)) (.expr 11 ts) with
    | some (v, []) => some v
    | _ => none

/-- The `safeEval` method of `PineScriptParser`: strips every character
outside the whitelist, hands the rest to the host evaluator, and returns
`false` on any error (the catch branch). -/
def safeEval (expression : String) : JSVal :=
  match jsEvalString (sanitize expression.data) with
  | some v => v
  | none => .bool false

/-! ### Script context and the OPERATORS table -/

/-- The `ScriptContext` interface of the parser module.  `indicatorCache`
models the `Map<string, any>` field; the parser class never reads or
writes it. -/
structure ScriptContext where
  symbol : String
  price : ℚ
  change : ℚ
  changePercent : ℚ
  historicalPrices : List ℚ
  historicalHighs : Option (List ℚ)
  historicalLows : Option (List ℚ)
  indicatorCache : List (String × JSVal)

/-- The `createScriptContext` factory: fresh empty cache. -/
def createScriptContext (symbol : String) (price change changePercent : ℚ)
    (historicalPrices : List ℚ) (historicalHighs historicalLows : Option (List ℚ)) :
    ScriptContext :=
  ⟨symbol, price, change, changePercent, historicalPrices, historicalHighs,
    historicalLows, []⟩

/-- The `/` entry of the `OPERATORS` table of the parser module: division
with divide-by-zero defined as `0`.  The table is declared at module level
but no evaluation path ever references it. -/
def OPERATORS_div (a b : ℚ) : ℚ := if b ≠ 0 then a / b else 0

/-- The `==` entry of the `OPERATORS` table: epsilon comparison with
tolerance `0.0001`.  Dead code, like the whole table. -/
def OPERATORS_eq (a b : ℚ) : Bool := decide (|a - b| < 1 / 10000)

/-- The `!=` entry of the `OPERATORS` table: the complementary epsilon
comparison.  Dead code, like the whole table. -/
def OPERATORS_ne (a b : ℚ) : Bool := decide (1 / 10000 ≤ |a - b|)

/-! ### Builtin variables and functions -/

/-- Names of the `BUILTIN_VARIABLES` table, in declaration order (object
iteration order in JavaScript). -/
def builtinVarNames : List String :=
  ["close", "price", "change", "change_percent", "prices", "highs", "lows"]

/-- Embedding of a rational series as a JavaScript array value. -/
def ratListToVal (l : List ℚ) : JSVal := .arr (l.map (fun q => .num (.fin q)))

/-- Value of a builtin variable in a context (`BUILTIN_VARIABLES`). -/
def builtinVarLookup (ctx : ScriptContext) : String → Option JSVal
  | "close" => some (.num (.fin ctx.price))
  | "price" => some (.num (.fin ctx.price))
  | "change" => some (.num (.fin ctx.change))
  | "change_percent" => some (.num (.fin ctx.changePercent))
  | "prices" => some (ratListToVal ctx.historicalPrices)
  | "highs" => some (ratListToVal (ctx.historicalHighs.getD []))
  | "lows" => some (ratListToVal (ctx.historicalLows.getD []))
  | _ => none

/-- Argument access with JavaScript semantics: missing arguments are
`undefined`. -/
def getArg (args : List JSVal) (i : ℕ) : JSVal := args.getD i .undefined

/-- Finite part of a number, `0` otherwise.  Used when coercing array
elements to a rational series; array elements in this system are finite
(JavaScript would propagate `NaN` through the indicator arithmetic
instead, a case no claim exercises). -/
def toRatD (n : JNum) : ℚ :=
  match n with
  | .fin q => q
  | _ => 0

/-- Coercion of a series argument.  `none` models a thrown `TypeError`
(reading `.length` of `undefined`, or calling array methods of a string),
which `processFunctionCalls` catches and turns into the text `"0"`.
Non-array primitives have no usable `length`/`slice`, so every indicator
loop degenerates and the indicator returns its empty result. -/
def asSeries : JSVal → Option (List ℚ)
  | .undefined => none
  | .str _ => none
  | .arr xs => some (xs.map (fun x => toRatD (toNumber x)))
  | _ => some []

/-- Coercion of a period argument to a natural number.  `none` covers
`NaN`, fractional and negative periods, for which the indicator loops
produce their empty result (idealizing JavaScript's fractional-index
slicing, which no claim exercises). -/
def asPeriod (v : JSVal) : Option ℕ :=
  match toNumber v with
  | .fin q => if q.den = 1 ∧ 0 ≤ q.num then some q.num.toNat else none
  | _ => none

/-- Period argument with a JavaScript default: the default applies exactly
when the argument is `undefined`. -/
def periodOr (v : JSVal) (dflt : ℕ) : Option ℕ :=
  match v with
  | .undefined => some dflt
  | _ => asPeriod v

/-- Required period argument (no default in the source signature). -/
def periodReq (v : JSVal) : Option ℕ :=
  match v with
  | .undefined => none
  | _ => asPeriod v

/-- Rational argument with a default (the Bollinger `stdDev`). -/
def ratArgOr (v : JSVal) (dflt : ℚ) : Option ℚ :=
  match v with
  | .undefined => some dflt
  | _ =>
    match toNumber v with
    | .fin q => some q
    | _ => none

/-- A possibly missing indicator value as a JavaScript value. -/
def optValNum (o : Option ℚ) : JSVal :=
  match o with
  | some q => .num (.fin q)
  | none => .undefined

/-- Membership test for the `BUILTIN_FUNCTIONS` table
(`hasOwnProperty`). -/
def isBuiltinName (s : String) : Bool :=
  s = "sma" || s = "ema" || s = "rsi" || s = "macd" || s = "macd_signal" ||
  s = "macd_histogram" || s = "bb_upper" || s = "bb_middle" || s = "bb_lower" ||
  s = "kdj_k" || s = "kdj_d" || s = "kdj_j" || s = "wr" || s = "crossover" ||
  s = "crossunder" || s = "abs" || s = "max" || s = "min" || s = "round" ||
  s = "floor" || s = "ceil"

/-- Dispatch of one `BUILTIN_FUNCTIONS` entry on already parsed arguments.
The result is `none` when the JavaScript call would throw (caught by
`processFunctionCalls`, which substitutes `"0"`). -/
def callBuiltin (name : String) (args : List JSVal) : Option JSVal :=
  if name = "sma" then
    (asSeries (getArg args 0)).map (fun s =>
      match periodReq (getArg args 1) with
      | some p => optValNum (latest (sma s p))
      | none => .undefined)
  else if name = "ema" then
    (asSeries (getArg args 0)).map (fun s =>
      match periodReq (getArg args 1) with
      | some p => optValNum (latest (ema s p))
      | none => .undefined)
  else if name = "rsi" then
    (asSeries (getArg args 0)).map (fun s =>
      match periodOr (getArg args 1) 14 with
      | some p => optValNum (latest (rsi s p))
      | none => .undefined)
  else if name = "macd" then
    (asSeries (getArg args 0)).map (fun s =>
      match periodOr (getArg args 1) 12, periodOr (getArg args 2) 26,
          periodOr (getArg args 3) 9 with
      | some fp, some sp, some gp =>
        (match latest (macdSeries s fp sp gp) with
         | some e => .num (.fin e.macd)
         | none => .undefined)
      | _, _, _ => .undefined)
  else if name = "macd_signal" then
    (asSeries (getArg args 0)).map (fun s =>
      match periodOr (getArg args 1) 12, periodOr (getArg args 2) 26,
          periodOr (getArg args 3) 9 with
      | some fp, some sp, some gp =>
        (match latest (macdSeries s fp sp gp) with
         | some e => .num (.fin e.sig)
         | none => .undefined)
      | _, _, _ => .undefined)
  else if name = "macd_histogram" then
    (asSeries (getArg args 0)).map (fun s =>
      match periodOr (getArg args 1) 12, periodOr (getArg args 2) 26,
          periodOr (getArg args 3) 9 with
      | some fp, some sp, some gp =>
        (match latest (macdSeries s fp sp gp) with
         | some e => .num (.fin e.histogram)
         | none => .undefined)
      | _, _, _ => .undefined)
  else if name = "bb_upper" then
    (asSeries (getArg args 0)).map (fun s =>
      match periodOr (getArg args 1) 20, ratArgOr (getArg args 2) 2 with
      | some p, some sd =>
        (match latest (bollingerBands s p sd) with
         | some e => .num (.fin e.upper)
         | none => .undefined)
      | _, _ => .undefined)
  else if name = "bb_middle" then
    (asSeries (getArg args 0)).map (fun s =>
      match periodOr (getArg args 1) 20, ratArgOr (getArg args 2) 2 with
      | some p, some sd =>
        (match latest (bollingerBands s p sd) with
         | some e => .num (.fin e.middle)
         | none => .undefined)
      | _, _ => .undefined)
  else if name = "bb_lower" then
    (asSeries (getArg args 0)).map (fun s =>
      match periodOr (getArg args 1) 20, ratArgOr (getArg args 2) 2 with
      | some p, some sd =>
        (match latest (bollingerBands s p sd) with
         | some e => .num (.fin e.lower)
         | none => .undefined)
      | _, _ => .undefined)
  else if name = "kdj_k" then
    match asSeries (getArg args 0), asSeries (getArg args 1), asSeries (getArg args 2) with
    | some h, some l, some c =>
      some (match periodOr (getArg args 3) 9 with
        | some p =>
          (match latest (kdj h l c p 3 3) with
           | some e => .num (.fin e.k)
           | none => .undefined)
        | none => .undefined)
    | _, _, _ => none
  else if name = "kdj_d" then
    match asSeries (getArg args 0), asSeries (getArg args 1), asSeries (getArg args 2) with
    | some h, some l, some c =>
      some (match periodOr (getArg args 3) 9 with
        | some p =>
          (match latest (kdj h l c p 3 3) with
           | some e => .num (.fin e.d)
           | none => .undefined)
        | none => .undefined)
    | _, _, _ => none
  else if name = "kdj_j" then
    match asSeries (getArg args 0), asSeries (getArg args 1), asSeries (getArg args 2) with
    | some h, some l, some c =>
      some (match periodOr (getArg args 3) 9 with
        | some p =>
          (match latest (kdj h l c p 3 3) with
           | some e => .num (.fin e.j)
           | none => .undefined)
        | none => .undefined)
    | _, _, _ => none
  else if name = "wr" then
    match asSeries (getArg args 0), asSeries (getArg args 1), asSeries (getArg args 2) with
    | some h, some l, some c =>
      some (match periodOr (getArg args 3) 14 with
        | some p => optValNum (latest (williamsR h l c p))
        | none => .undefined)
    | _, _, _ => none
  else if name = "crossover" then
    match asSeries (getArg args 0), asSeries (getArg args 1) with
    | some a, some b => some (.bool (crossover a b).bullishCross)
    | _, _ => none
  else if name = "crossunder" then
    match asSeries (getArg args 0), asSeries (getArg args 1) with
    | some a, some b => some (.bool (crossover a b).bearishCross)
    | _, _ => none
  else if name = "abs" then some (.num (jabs (toNumber (getArg args 0))))
  else if name = "max" then
    some (.num (args.foldl (fun acc v => jmax2 acc (toNumber v)) .ninf))
  else if name = "min" then
    some (.num (args.foldl (fun acc v => jmin2 acc (toNumber v)) .inf))
  else if name = "round" then some (.num (jround (toNumber (getArg args 0))))
  else if name = "floor" then some (.num (jfloor (toNumber (getArg args 0))))
  else if name = "ceil" then some (.num (jceil (toNumber (getArg args 0))))
  else none

/-! ### The expression pipeline -/

/-- Word-bounded global replacement, the JavaScript
`replace(new RegExp('\\b' + name + '\\b', 'g'), rep)`: an occurrence
matches when the previous consumed character and the character after the
pattern are not word characters; replaced text is not rescanned. -/
def replaceWordF : ℕ → List Char → List Char → List Char → Bool → List Char
  | 0, cs, _, _, _ => cs
  | _ + 1, [], _, _, _ => []
  | f + 1, c :: cs, pat, rep, prevW =>
    if !prevW && pat.isPrefixOf (c :: cs) &&
        (match (c :: cs).drop pat.length with
         | [] => true
         | d :: _ => !isWordC d) then
      rep ++ replaceWordF f ((c :: cs).drop pat.length) pat rep true
    else c :: replaceWordF f cs pat rep (isWordC c)

/-- The builtin-variable substitution loop at the top of
`evaluateExpression`: each variable name, in table order, is replaced
word-bounded by the JSON rendering of its context value. -/
def substituteVars (ctx : ScriptContext) (e : List Char) : List Char :=
  builtinVarNames.foldl (fun acc name =>
    match builtinVarLookup ctx name with
    | some v => replaceWordF (acc.length + 1) acc name.data (jsonStringify v).data false
    | none => acc) e

/-- Split on every occurrence of a character (JavaScript
`String.prototype.split` with a single-character separator, keeping empty
pieces). -/
def splitOnChar (sep : Char) (cs : List Char) : List (List Char) :=
  cs.foldr (fun c acc =>
    if c = sep then [] :: acc
    else match acc with
      | g :: gs => (c :: g) :: gs
      | [] => [[c]]) [[]]

/-- The numeric-argument test of `parseArguments`:
the regex `^\d+(\.\d+)?$`. -/
def isNumericArg (cs : List Char) : Bool :=
  let ds := cs.takeWhile isDigitC
  let rest := cs.drop ds.length
  !ds.isEmpty && (rest.isEmpty ||
    (match rest with
     | '.' :: fr => !fr.isEmpty && fr.all isDigitC
     | _ => false))

/-- The `parseArguments` method: split the argument text on every comma
(knowing nothing of nesting), trim each piece, and classify it as numeric
literal, builtin variable, quoted string, or an expression to evaluate
recursively (`evalArg`). -/
def parseArgumentsWith (evalArg : String → JSVal) (ctx : ScriptContext)
    (argsStr : List Char) : List JSVal :=
  if (trimC argsStr).isEmpty then []
  else (splitOnChar ',' argsStr).map (fun a =>
    let t := trimC a
    if isNumericArg t then .num (.fin (scanNum t).1)
    else
      match builtinVarLookup ctx (String.mk t) with
      | some v => v
      | none =>
        if (match t with
            | '"' :: _ => true
            | _ => false) && t.getLast? = some '"' then
          .str (String.mk ((t.drop 1).dropLast))
        else evalArg (String.mk t))

/-- The `processFunctionCalls` method: scan for the pattern
`(\w+)\s*\(([^)]*)\)`; a builtin call is parsed, invoked, and replaced by
the `String(...)` rendering of its result (or `"0"` if the call throws);
any other match is left unchanged; replaced text is not rescanned, and
matching resumes after the closing parenthesis. -/
def pfcF (argsOf : List Char → List JSVal) : ℕ → List Char → List Char
  | 0, cs => cs
  | _ + 1, [] => []
  | f + 1, c :: cs =>
    if isWordC c then
      let run := (c :: cs).takeWhile isWordC
      let afterRun := (c :: cs).drop run.length
      let sp := afterRun.takeWhile isSpaceC
      let afterSp := afterRun.drop sp.length
      match afterSp with
      | '(' :: inner =>
        let argsChars := inner.takeWhile (fun d => d != ')')
        let afterArgs := inner.drop argsChars.length
        (match afterArgs with
         | ')' :: restAll =>
           if isBuiltinName (String.mk run) then
             (match callBuiltin (String.mk run) (argsOf argsChars) with
              | some v => (jsToString v).data
              | none => ['0']) ++ pfcF argsOf f restAll
           else run ++ sp ++ '(' :: argsChars ++ ')' :: pfcF argsOf f restAll
         | _ => run ++ sp ++ '(' :: inner)
      | _ => run ++ sp ++ pfcF argsOf f afterSp
    else c :: pfcF argsOf f cs

/-- One layer of the `evaluateExpression` method: substitute builtin
variables, process function calls, then `safeEval` the result.  The
enclosing try/catch is unreachable in the model because every stage is
total (`safeEval` and the argument evaluation already return `false` on
their own errors), mirroring how the JavaScript stages catch their own
exceptions. -/
def evaluateExpressionWith (evalArg : String → JSVal) (ctx : ScriptContext)
    (expression : String) : JSVal :=
  let e1 := substituteVars ctx expression.data
  let e2 := pfcF (parseArgumentsWith evalArg ctx) (e1.length + 1) e1
  safeEval (String.mk e2)

/-- The `evaluateExpression` recursion (arguments that are neither
literals, variables nor quoted strings are evaluated as expressions),
fuelled by nesting depth; exhausted fuel returns `false`, which no input
of bounded nesting ever reaches. -/
def evaluateExpressionFuel (ctx : ScriptContext) : ℕ → String → JSVal
  | 0, _ => .bool false
  | f + 1, e => evaluateExpressionWith (evaluateExpressionFuel ctx f) ctx e

/-- Entry point for one expression: the nesting depth of argument
evaluation is bounded by the expression length. -/
def evaluateExpression (ctx : ScriptContext) (e : String) : JSVal :=
  evaluateExpressionFuel ctx (e.length + 1) e

/-! ### Script preprocessing and execution -/

/-- Removes a `//` line comment (the `replace(/\/\/.*$/gm, '')` step,
applied per line). -/
def stripCommentF : ℕ → List Char → List Char
  | 0, cs => cs
  | _ + 1, [] => []
  | _ + 1, '/' :: '/' :: _ => []
  | f + 1, c :: cs => c :: stripCommentF f cs

/-- Joins pieces with a separator character. -/
def joinWithChar (sep : Char) : List (List Char) → List Char
  | [] => []
  | [g] => g
  | g :: gs => g ++ sep :: joinWithChar sep gs

/-- The `preprocessScript` method: strip line comments, replace the word
operators `and`, `or`, `not` by `&&`, `||`, `!`, and trim. -/
def preprocessScript (script : String) : String :=
  let lines := splitOnChar '\n' script.data
  let noComments := lines.map (fun l => stripCommentF (l.length + 1) l)
  let s1 := joinWithChar '\n' noComments
  let s2 := replaceWordF (s1.length + 1) s1 "and".data "&&".data false
  let s3 := replaceWordF (s2.length + 1) s2 "or".data "||".data false
  let s4 := replaceWordF (s3.length + 1) s3 "not".data "!".data false
  String.mk (trimC s4)

/-- Prefix test on character lists. -/
def startsWithC (pre s : List Char) : Bool := pre.isPrefixOf s

/-- The line loop of `evaluateScript`: nonblank lines are classified as
`buy` assignments, `sell` assignments, or generic `name = expression`
assignments (splitting on every `=`, so the expression is the text between
the first and second `=`); anything else is skipped.  Assignments are
collected newest-first, as later assignments to the same key overwrite
earlier ones in the result object. -/
def lineAssignments (evalExpr : String → JSVal) (script : List Char) :
    List (String × JSVal) :=
  let lines := (splitOnChar '\n' script).filter (fun l => !(trimC l).isEmpty)
  lines.foldl (fun acc line =>
    let t := trimC line
    if startsWithC "buy = ".data t || startsWithC "buy=".data t then
      ("buy", evalExpr (String.mk (trimC ((splitOnChar '=' t).getD 1 [])))) :: acc
    else if startsWithC "sell = ".data t || startsWithC "sell=".data t then
      ("sell", evalExpr (String.mk (trimC ((splitOnChar '=' t).getD 1 [])))) :: acc
    else if t.contains '=' then
      (String.mk (trimC ((splitOnChar '=' t).getD 0 [])),
        evalExpr (String.mk (trimC ((splitOnChar '=' t).getD 1 [])))) :: acc
    else acc) []

/-- Lookup of a key in the collected assignments (newest first). -/
def lookupAssign (l : List (String × JSVal)) (k : String) : Option JSVal :=
  (l.find? (fun p => p.1 == k)).map (fun p => p.2)

/-- The `ScriptResult` interface.  `buySignal`/`sellSignal` are typed
`boolean` in TypeScript but carry whatever value `result.buy || false`
produces at runtime, so they are modelled as values; `value` is
`undefined` unless a line assigns `value`; `error` is set only by the
catch branch of `execute`. -/
structure ScriptResult where
  buySignal : JSVal
  sellSignal : JSVal
  value : JSVal
  error : Option String
deriving Repr

/-- The `execute` method: preprocess, evaluate the assignment lines, and
package `result.buy || false` and `result.sell || false`.  The catch
branch (both signals `false` plus a message in `error`) is unreachable in
the model because every stage is total, mirroring the source where each
inner stage catches its own exceptions; hence `error := none`. -/
def execute (script : String) (ctx : ScriptContext) : ScriptResult :=
  let asn := lineAssignments (fun e => evaluateExpression ctx e)
    (preprocessScript script).data
  { buySignal := jsOrVal ((lookupAssign asn "buy").getD .undefined) (.bool false)
    sellSignal := jsOrVal ((lookupAssign asn "sell").getD .undefined) (.bool false)
    value := (lookupAssign asn "value").getD .undefined
    error := none }

/-! ### Concrete contexts used by the evaluator claims -/

/-- A plain context: quote only, empty history. -/
def ctxA : ScriptContext := createScriptContext "000001" 10 1 2 [] none none

/-- A context with a one-point history, shorter than any indicator
period used in the claims. -/
def ctxShort : ScriptContext := createScriptContext "S" 12 0 0 [12] none none

/-- A 15-point history whose single 14-period RSI value is exactly 25:
one gain of `1` and one loss of `3` over 14 differences give
`avgGain / (avgGain + avgLoss) = 1/4`, hence `RSI = 25`. -/
def pricesRsi25 : List ℚ := [10, 11, 8, 8, 8, 8, 8, 8, 8, 8, 8, 8, 8, 8, 8]

/-- A context carrying the `pricesRsi25` history. -/
def ctxRsi25 : ScriptContext := createScriptContext "X" 8 0 0 pricesRsi25 none none

/-! ### Helper lemmas for the indicator claims -/

theorem foldl_max_replicate (m : ℕ) (c : ℚ) :
    List.foldl max c (List.replicate m c) = c := by
  induction m with
  | zero => rfl
  | succ k ih => rw [List.replicate_succ, List.foldl_cons, max_self]; exact ih

theorem foldl_min_replicate (m : ℕ) (c : ℚ) :
    List.foldl min c (List.replicate m c) = c := by
  induction m with
  | zero => rfl
  | succ k ih => rw [List.replicate_succ, List.foldl_cons, min_self]; exact ih

theorem listMax_replicate (m : ℕ) (c : ℚ) :
    listMax (List.replicate (m + 1) c) = c := by
  rw [List.replicate_succ, listMax, foldl_max_replicate]

theorem listMin_replicate (m : ℕ) (c : ℚ) :
    listMin (List.replicate (m + 1) c) = c := by
  rw [List.replicate_succ, listMin, foldl_min_replicate]

theorem zipWith_sub_replicate (m n : ℕ) (c : ℚ) :
    List.zipWith (fun a b => a - b) (List.replicate m c) (List.replicate n c) =
      List.replicate (min m n) (0 : ℚ) := by
  induction m generalizing n with
  | zero => simp
  | succ k ih =>
    cases n with
    | zero => simp
    | succ l =>
      rw [List.replicate_succ, List.replicate_succ, List.zipWith_cons_cons, ih,
        Nat.succ_min_succ, List.replicate_succ, sub_self]

theorem zipWith_replicate_both {α β γ : Type} (f : α → β → γ) (t : ℕ) (a : α) (b : β) :
    List.zipWith f (List.replicate t a) (List.replicate t b) =
      List.replicate t (f a b) := by
  induction t with
  | zero => rfl
  | succ k ih =>
    rw [List.replicate_succ, List.replicate_succ, List.zipWith_cons_cons, ih,
      List.replicate_succ]

theorem rsiDiffs_replicate (n : ℕ) (c : ℚ) :
    rsiDiffs (List.replicate n c) = List.replicate (n - 1) (0 : ℚ) := by
  rw [rsiDiffs, List.drop_replicate, zipWith_sub_replicate]
  congr 1
  omega

theorem rsiLosses_replicate (n : ℕ) (c : ℚ) :
    rsiLosses (List.replicate n c) = List.replicate (n - 1) (0 : ℚ) := by
  rw [rsiLosses, rsiDiffs_replicate, List.map_replicate]
  norm_num

theorem rsiAvgLoss_replicate (n p k : ℕ) (c : ℚ) :
    rsiAvgLoss (List.replicate n c) p k = 0 := by
  rw [rsiAvgLoss, windowAt, rsiLosses_replicate, List.drop_replicate, List.take_replicate]
  simp

theorem builtinVarLookup_cacheIrrel (c : ScriptContext) (x : List (String × JSVal))
    (n : String) :
    builtinVarLookup { c with indicatorCache := x } n = builtinVarLookup c n := by
  cases c
  rfl

theorem evalFuel_cacheIrrel (c : ScriptContext) (x : List (String × JSVal)) :
    ∀ (f : ℕ) (e : String),
      evaluateExpressionFuel { c with indicatorCache := x } f e =
        evaluateExpressionFuel c f e := by
  intro f
  induction f with
  | zero => intro e; rfl
  | succ k ih =>
    intro e
    show evaluateExpressionWith (evaluateExpressionFuel { c with indicatorCache := x } k)
        { c with indicatorCache := x } e =
      evaluateExpressionWith (evaluateExpressionFuel c k) c e
    rw [funext ih]
    cases c
    rfl

theorem execute_cacheIrrel (s : String) (c : ScriptContext)
    (x : List (String × JSVal)) :
    execute s { c with indicatorCache := x } = execute s c := by
  have h : (fun e => evaluateExpression { c with indicatorCache := x } e) =
      (fun e => evaluateExpression c e) := by
    funext e
    unfold evaluateExpression
    exact evalFuel_cacheIrrel c x (e.length + 1) e
  unfold execute
  rw [h]

theorem parseF_expr_succ (f lvl : ℕ) (ts : List Tok) :
    parseF (f + 1) (.expr lvl ts) =
      if 5 ≤ lvl then
        match parseF f (.expr (lvl - 1) ts) with
        | some (v, ts1) => parseF f (.rest lvl v ts1)
        | none => none
      else if lvl = 4 then
        match ts with
        | .bangT :: rest =>
          (parseF f (.expr 4 rest)).map (fun r => (JSVal.bool (!toBool r.1), r.2))
        | .minusT :: rest =>
          (parseF f (.expr 4 rest)).map (fun r => (JSVal.num (jneg (toNumber r.1)), r.2))
        | .plusT :: rest =>
          (parseF f (.expr 4 rest)).map (fun r => (JSVal.num (toNumber r.1), r.2))
        | _ => parseF f (.expr 3 ts)
      else
        match ts with
        | .num q :: rest => some (.num (.fin q), rest)
        | .lit s :: rest => some (.str s, rest)
        | .lparen :: rest =>
          (match parseF f (.expr 11 rest) with
           | some (v, .rparen :: rest2) => some (v, rest2)
           | _ => none)
        | .lbrack :: .rbrack :: rest => some (.arr [], rest)
        | .lbrack :: rest => parseF f (.elems [] rest)
        | _ => none := rfl

theorem parseF_expr_opFirst (t : Tok) (ht : startsExpr t = false) :
    ∀ (f lvl : ℕ), lvl ≤ 11 → ∀ ts, parseF f (.expr lvl (t :: ts)) = none := by
  cases t <;> try simp [startsExpr] at ht
  all_goals
    intro f
    induction f with
    | zero => intro lvl _ ts; rfl
    | succ k ih =>
      intro lvl hlvl ts
      rcases Nat.lt_or_ge lvl 5 with h5 | h5
      · rcases Nat.lt_or_ge lvl 4 with h4 | h4
        · rw [parseF_expr_succ, if_neg (by omega : ¬ 5 ≤ lvl),
            if_neg (by omega : ¬ lvl = 4)]
        · have h4e : lvl = 4 := by omega
          subst h4e
          rw [parseF_expr_succ, if_neg (by omega : ¬ 5 ≤ 4), if_pos rfl]
          exact ih 3 (by omega) ts
      · rw [parseF_expr_succ, if_pos h5, ih (lvl - 1) (by omega) ts]

theorem tokenizeF_space (f : ℕ) (cs : List Char) :
    tokenizeF (f + 1) (' ' :: cs) = tokenizeF f cs := rfl

theorem tokenizeF_lt (f : ℕ) (cs : List Char) :
    tokenizeF (f + 1) ('<' :: ' ' :: cs) =
      (tokenizeF f (' ' :: cs)).map (fun ts => Tok.ltT :: ts) := rfl

theorem tokenizeF_gt (f : ℕ) (cs : List Char) :
    tokenizeF (f + 1) ('>' :: ' ' :: cs) =
      (tokenizeF f (' ' :: cs)).map (fun ts => Tok.gtT :: ts) := rfl

theorem tokenizeF_le (f : ℕ) (cs : List Char) :
    tokenizeF (f + 1) ('<' :: '=' :: ' ' :: cs) =
      (tokenizeF f (' ' :: cs)).map (fun ts => Tok.leT :: ts) := rfl

theorem tokenizeF_ge (f : ℕ) (cs : List Char) :
    tokenizeF (f + 1) ('>' :: '=' :: ' ' :: cs) =
      (tokenizeF f (' ' :: cs)).map (fun ts => Tok.geT :: ts) := rfl

theorem tokenizeF_eq (f : ℕ) (cs : List Char) :
    tokenizeF (f + 1) ('=' :: '=' :: ' ' :: cs) =
      (tokenizeF f (' ' :: cs)).map (fun ts => Tok.eqT :: ts) := rfl

theorem tokenizeF_ne (f : ℕ) (cs : List Char) :
    tokenizeF (f + 1) ('!' :: '=' :: ' ' :: cs) =
      (tokenizeF f (' ' :: cs)).map (fun ts => Tok.neT :: ts) := rfl

theorem jsEvalString_opFirst (cs : List Char) (t : Tok) (o : Option (List Tok))
    (ht : startsExpr t = false)
    (htok : tokenizeF (cs.length + 1) cs = o.map (fun ts => t :: ts)) :
    jsEvalString cs = none := by
  rcases o with _ | ts
  · simp only [Option.map_none'] at htok
    simp [jsEvalString, htok]
  · simp only [Option.map_some'] at htok
    simp only [jsEvalString, htok]
    rw [parseF_expr_opFirst t ht _ 11 (by norm_num) ts]

theorem tokens_undefined_lt (sr : List Char) :
    tokenizeF ((' ' :: '<' :: ' ' :: sr).length + 1) (' ' :: '<' :: ' ' :: sr) =
      (tokenizeF (sr.length + 1) sr).map (fun ts => Tok.ltT :: ts) := by
  show tokenizeF (sr.length + 3 + 1) (' ' :: '<' :: ' ' :: sr) = _
  rw [tokenizeF_space]
  show tokenizeF (sr.length + 2 + 1) ('<' :: ' ' :: sr) = _
  rw [tokenizeF_lt]
  show (tokenizeF (sr.length + 1 + 1) (' ' :: sr)).map _ = _
  rw [tokenizeF_space]

theorem safeEval_undefined_lt (rest : String) :
    safeEval ("undefined < " ++ rest) = .bool false := by
  obtain ⟨rs⟩ := rest
  have hnone : jsEvalString (sanitize
      ('u' :: 'n' :: 'd' :: 'e' :: 'f' :: 'i' :: 'n' :: 'e' :: 'd' :: ' ' :: '<' :: ' ' :: rs)) =
      none := by
    have hsan : sanitize
        ('u' :: 'n' :: 'd' :: 'e' :: 'f' :: 'i' :: 'n' :: 'e' :: 'd' :: ' ' :: '<' :: ' ' :: rs) =
        ' ' :: '<' :: ' ' :: sanitize rs := by
      simp +decide [sanitize]
    rw [hsan]
    exact jsEvalString_opFirst _ Tok.ltT (tokenizeF ((sanitize rs).length + 1) (sanitize rs))
      rfl (tokens_undefined_lt (sanitize rs))
  simp [safeEval, hnone]

theorem tokens_undefined_gt (sr : List Char) :
    tokenizeF ((' ' :: '>' :: ' ' :: sr).length + 1) (' ' :: '>' :: ' ' :: sr) =
      (tokenizeF (sr.length + 1) sr).map (fun ts => Tok.gtT :: ts) := by
  show tokenizeF (sr.length + 3 + 1) (' ' :: '>' :: ' ' :: sr) = _
  rw [tokenizeF_space]
  show tokenizeF (sr.length + 2 + 1) ('>' :: ' ' :: sr) = _
  rw [tokenizeF_gt]
  show (tokenizeF (sr.length + 1 + 1) (' ' :: sr)).map _ = _
  rw [tokenizeF_space]

theorem safeEval_undefined_gt (rest : String) :
    safeEval ("undefined > " ++ rest) = .bool false := by
  obtain ⟨rs⟩ := rest
  have hnone : jsEvalString (sanitize
      ('u' :: 'n' :: 'd' :: 'e' :: 'f' :: 'i' :: 'n' :: 'e' :: 'd' :: ' ' :: '>' :: ' ' :: rs)) = none := by
    have hsan : sanitize ('u' :: 'n' :: 'd' :: 'e' :: 'f' :: 'i' :: 'n' :: 'e' :: 'd' :: ' ' :: '>' :: ' ' :: rs) =
        ' ' :: '>' :: ' ' :: sanitize rs := by
      simp +decide [sanitize]
    rw [hsan]
    exact jsEvalString_opFirst _ Tok.gtT
      (tokenizeF ((sanitize rs).length + 1) (sanitize rs)) rfl
      (tokens_undefined_gt (sanitize rs))
  simp [safeEval, hnone]

theorem tokens_undefined_le (sr : List Char) :
    tokenizeF ((' ' :: '<' :: '=' :: ' ' :: sr).length + 1) (' ' :: '<' :: '=' :: ' ' :: sr) =
      (tokenizeF (sr.length + 2) sr).map (fun ts => Tok.leT :: ts) := by
  show tokenizeF (sr.length + 4 + 1) (' ' :: '<' :: '=' :: ' ' :: sr) = _
  rw [tokenizeF_space]
  show tokenizeF (sr.length + 3 + 1) ('<' :: '=' :: ' ' :: sr) = _
  rw [tokenizeF_le]
  show (tokenizeF (sr.length + 2 + 1) (' ' :: sr)).map _ = _
  rw [tokenizeF_space]

theorem safeEval_undefined_le (rest : String) :
    safeEval ("undefined <= " ++ rest) = .bool false := by
  obtain ⟨rs⟩ := rest
  have hnone : jsEvalString (sanitize
      ('u' :: 'n' :: 'd' :: 'e' :: 'f' :: 'i' :: 'n' :: 'e' :: 'd' :: ' ' :: '<' :: '=' :: ' ' :: rs)) = none := by
    have hsan : sanitize ('u' :: 'n' :: 'd' :: 'e' :: 'f' :: 'i' :: 'n' :: 'e' :: 'd' :: ' ' :: '<' :: '=' :: ' ' :: rs) =
        ' ' :: '<' :: '=' :: ' ' :: sanitize rs := by
      simp +decide [sanitize]
    rw [hsan]
    exact jsEvalString_opFirst _ Tok.leT
      (tokenizeF ((sanitize rs).length + 2) (sanitize rs)) rfl
      (tokens_undefined_le (sanitize rs))
  simp [safeEval, hnone]

theorem tokens_undefined_ge (sr : List Char) :
    tokenizeF ((' ' :: '>' :: '=' :: ' ' :: sr).length + 1) (' ' :: '>' :: '=' :: ' ' :: sr) =
      (tokenizeF (sr.length + 2) sr).map (fun ts => Tok.geT :: ts) := by
  show tokenizeF (sr.length + 4 + 1) (' ' :: '>' :: '=' :: ' ' :: sr) = _
  rw [tokenizeF_space]
  show tokenizeF (sr.length + 3 + 1) ('>' :: '=' :: ' ' :: sr) = _
  rw [tokenizeF_ge]
  show (tokenizeF (sr.length + 2 + 1) (' ' :: sr)).map _ = _
  rw [tokenizeF_space]

theorem safeEval_undefined_ge (rest : String) :
    safeEval ("undefined >= " ++ rest) = .bool false := by
  obtain ⟨rs⟩ := rest
  have hnone : jsEvalString (sanitize
      ('u' :: 'n' :: 'd' :: 'e' :: 'f' :: 'i' :: 'n' :: 'e' :: 'd' :: ' ' :: '>' :: '=' :: ' ' :: rs)) = none := by
    have hsan : sanitize ('u' :: 'n' :: 'd' :: 'e' :: 'f' :: 'i' :: 'n' :: 'e' :: 'd' :: ' ' :: '>' :: '=' :: ' ' :: rs) =
        ' ' :: '>' :: '=' :: ' ' :: sanitize rs := by
      simp +decide [sanitize]
    rw [hsan]
    exact jsEvalString_opFirst _ Tok.geT
      (tokenizeF ((sanitize rs).length + 2) (sanitize rs)) rfl
      (tokens_undefined_ge (sanitize rs))
  simp [safeEval, hnone]

theorem tokens_undefined_eq (sr : List Char) :
    tokenizeF ((' ' :: '=' :: '=' :: ' ' :: sr).length + 1) (' ' :: '=' :: '=' :: ' ' :: sr) =
      (tokenizeF (sr.length + 2) sr).map (fun ts => Tok.eqT :: ts) := by
  show tokenizeF (sr.length + 4 + 1) (' ' :: '=' :: '=' :: ' ' :: sr) = _
  rw [tokenizeF_space]
  show tokenizeF (sr.length + 3 + 1) ('=' :: '=' :: ' ' :: sr) = _
  rw [tokenizeF_eq]
  show (tokenizeF (sr.length + 2 + 1) (' ' :: sr)).map _ = _
  rw [tokenizeF_space]

theorem safeEval_undefined_eq (rest : String) :
    safeEval ("undefined == " ++ rest) = .bool false := by
  obtain ⟨rs⟩ := rest
  have hnone : jsEvalString (sanitize
      ('u' :: 'n' :: 'd' :: 'e' :: 'f' :: 'i' :: 'n' :: 'e' :: 'd' :: ' ' :: '=' :: '=' :: ' ' :: rs)) = none := by
    have hsan : sanitize ('u' :: 'n' :: 'd' :: 'e' :: 'f' :: 'i' :: 'n' :: 'e' :: 'd' :: ' ' :: '=' :: '=' :: ' ' :: rs) =
        ' ' :: '=' :: '=' :: ' ' :: sanitize rs := by
      simp +decide [sanitize]
    rw [hsan]
    exact jsEvalString_opFirst _ Tok.eqT
      (tokenizeF ((sanitize rs).length + 2) (sanitize rs)) rfl
      (tokens_undefined_eq (sanitize rs))
  simp [safeEval, hnone]

theorem tokens_undefined_ne (sr : List Char) :
    tokenizeF ((' ' :: '!' :: '=' :: ' ' :: sr).length + 1) (' ' :: '!' :: '=' :: ' ' :: sr) =
      (tokenizeF (sr.length + 2) sr).map (fun ts => Tok.neT :: ts) := by
  show tokenizeF (sr.length + 4 + 1) (' ' :: '!' :: '=' :: ' ' :: sr) = _
  rw [tokenizeF_space]
  show tokenizeF (sr.length + 3 + 1) ('!' :: '=' :: ' ' :: sr) = _
  rw [tokenizeF_ne]
  show (tokenizeF (sr.length + 2 + 1) (' ' :: sr)).map _ = _
  rw [tokenizeF_space]

theorem safeEval_undefined_ne (rest : String) :
    safeEval ("undefined != " ++ rest) = .bool false := by
  obtain ⟨rs⟩ := rest
  have hnone : jsEvalString (sanitize
      ('u' :: 'n' :: 'd' :: 'e' :: 'f' :: 'i' :: 'n' :: 'e' :: 'd' :: ' ' :: '!' :: '=' :: ' ' :: rs)) = none := by
    have hsan : sanitize ('u' :: 'n' :: 'd' :: 'e' :: 'f' :: 'i' :: 'n' :: 'e' :: 'd' :: ' ' :: '!' :: '=' :: ' ' :: rs) =
        ' ' :: '!' :: '=' :: ' ' :: sanitize rs := by
      simp +decide [sanitize]
    rw [hsan]
    exact jsEvalString_opFirst _ Tok.neT
      (tokenizeF ((sanitize rs).length + 2) (sanitize rs)) rfl
      (tokens_undefined_ne (sanitize rs))
  simp [safeEval, hnone]

theorem asSeries_ratList (S : List ℚ) : asSeries (ratListToVal S) = some S := by
  simp only [asSeries, ratListToVal, List.map_map]
  congr 1
  induction S with
  | nil => rfl
  | cons a as ih => exact List.map_cons _ a as ▸ by rw [ih]; rfl

theorem asPeriod_natCast (p : ℕ) : asPeriod (.num (.fin (p : ℚ))) = some p := by
  simp [asPeriod, toNumber, Rat.den_natCast, Rat.num_natCast]

theorem ema_empty_of_short (S : List ℚ) (p : ℕ) (h : S.length < p) : ema S p = [] := by
  by_cases h0 : S.length = 0
  · rw [ema, if_pos h0]
  · rw [ema, if_neg h0, if_neg (by omega)]

theorem kdjSmooth_50 (s : ℕ) (hs : 1 ≤ s) (t : ℕ) :
    kdjSmooth s 50 (List.replicate t (50 : ℚ)) = List.replicate t (50 : ℚ) := by
  have hv : ((50 : ℚ) + ((s : ℚ) - 1) * 50) / (s : ℚ) = 50 := by
    have hs0 : ((s : ℚ)) ≠ 0 := Nat.cast_ne_zero.mpr (by omega)
    field_simp
    ring
  induction t with
  | zero => rfl
  | succ k ih => rw [List.replicate_succ, kdjSmooth, hv, ih]

/-! ### Theorems for claims C7, C8, C9, C10 -/

/-- C7: for every period `p` and price series `S` with `len(S) < p`, both
`sma(S, p)` and `ema(S, p)` return the empty series. -/
theorem sma_ema_empty_when_short (p : ℕ) (S : List ℚ) (h : S.length < p) :
    sma S p = [] ∧ ema S p = [] := by
  refine ⟨by rw [sma, if_pos h], ?_⟩
  by_cases h0 : S.length = 0
  · rw [ema, if_pos h0]
  · rw [ema, if_neg h0, if_neg (by omega)]

/-- Witness for C7 at `p = 2`, `S = [5]`. -/
theorem sma_ema_empty_when_short_witness :
    (([(5 : ℚ)] : List ℚ).length < 2) ∧ (sma [(5 : ℚ)] 2 = [] ∧ ema [(5 : ℚ)] 2 = []) :=
  ⟨by decide, sma_ema_empty_when_short 2 [5] (by decide)⟩

/-- C8: whenever the average loss of the window of consecutive differences at
output index `k` is exactly zero, `rsi` outputs exactly `100` there; in
particular on a flat series every computed value is `100`.  The hypothesis
`1 ≤ p` excludes the degenerate period `0`, where JavaScript would divide
`0 / 0` into `NaN` rather than an exact zero average loss. -/
theorem rsi_zero_loss_is_100 :
    (∀ (S : List ℚ) (p k : ℕ), 1 ≤ p → k < (rsi S p).length →
      rsiAvgLoss S p k = 0 → (rsi S p).getD k 0 = 100) ∧
    (∀ (c : ℚ) (n p : ℕ), 1 ≤ p → ∀ x ∈ rsi (List.replicate n c) p, x = 100) := by
  constructor
  · intro S p k _ hk hloss
    by_cases hg : S.length < p + 1
    · rw [rsi, if_pos hg] at hk
      simp at hk
    · rw [rsi, if_neg hg] at hk ⊢
      rw [List.length_map, List.length_range] at hk
      rw [List.getD_eq_getElem?_getD, List.getElem?_map, List.getElem?_range hk]
      simp [hloss]
  · intro c n p _ x hx
    by_cases hg : (List.replicate n c).length < p + 1
    · rw [rsi, if_pos hg] at hx
      simp at hx
    · rw [rsi, if_neg hg] at hx
      rw [List.mem_map] at hx
      obtain ⟨k, _, hfx⟩ := hx
      rw [rsiAvgLoss_replicate] at hfx
      simpa using hfx.symm

/-- Witness for C8 at `S = [1, 1]`, `p = 1`, `k = 0` and the flat series
`replicate 2 1`. -/
theorem rsi_zero_loss_is_100_witness :
    ((1 ≤ 1 ∧ 0 < (rsi [(1 : ℚ), 1] 1).length ∧ rsiAvgLoss [(1 : ℚ), 1] 1 0 = 0) ∧
      (rsi [(1 : ℚ), 1] 1).getD 0 0 = 100) ∧
    ∀ x ∈ rsi (List.replicate 2 (1 : ℚ)) 1, x = 100 :=
  ⟨⟨⟨le_refl 1, by simp [rsi, rsiGains, rsiDiffs],
      by norm_num [rsiAvgLoss, windowAt, rsiLosses, rsiDiffs]⟩,
    rsi_zero_loss_is_100.1 [1, 1] 1 0 (le_refl 1)
      (by simp [rsi, rsiGains, rsiDiffs])
      (by norm_num [rsiAvgLoss, windowAt, rsiLosses, rsiDiffs])⟩,
    rsi_zero_loss_is_100.2 1 2 1 (le_refl 1)⟩

/-- C9: the RSV of `kdj` is defined as `50` whenever the window's highest
high equals its lowest low; the K/D smoothing recursion is seeded at `50`
(the first smoothed value of `[x]` is `(x + (s - 1) * 50) / s`); and on a
flat high/low series every computed entry is `k = d = j = 50`. -/
theorem kdj_flat_window_50 :
    (∀ (highs lows closes : List ℚ) (p kk : ℕ),
      kk < (kdjRsv highs lows closes p).length →
      listMax (windowAt highs kk p) = listMin (windowAt lows kk p) →
      (kdjRsv highs lows closes p).getD kk 0 = 50) ∧
    (∀ (s : ℕ) (x : ℚ), kdjSmooth s 50 [x] = [(x + ((s : ℚ) - 1) * 50) / s]) ∧
    (∀ (c : ℚ) (closes : List ℚ) (p ks ds : ℕ), 1 ≤ p → 1 ≤ ks → 1 ≤ ds →
      ∀ e ∈ kdj (List.replicate closes.length c) (List.replicate closes.length c)
        closes p ks ds, e = ⟨50, 50, 50⟩) := by
  refine ⟨?_, ?_, ?_⟩
  · intro highs lows closes p kk hk hflat
    rw [kdjRsv] at hk ⊢
    rw [List.length_map, List.length_range] at hk
    rw [List.getD_eq_getElem?_getD, List.getElem?_map, List.getElem?_range hk]
    simp [hflat]
  · intro s x
    simp [kdjSmooth]
  · intro c closes p ks ds hp hks hds e he
    by_cases hg : (List.replicate closes.length c).length < p ∨
        (List.replicate closes.length c).length < p ∨ closes.length < p
    · rw [kdj, if_pos hg] at he
      simp at he
    · have hg2 := hg
      push_neg at hg2
      have hpn : p ≤ closes.length := hg2.2.2
      have hrsv : kdjRsv (List.replicate closes.length c) (List.replicate closes.length c)
          closes p = List.replicate (closes.length + 1 - p) 50 := by
        rw [kdjRsv]
        refine List.eq_replicate_iff.mpr ⟨by rw [List.length_map, List.length_range], ?_⟩
        intro b hb
        rw [List.mem_map] at hb
        obtain ⟨kk, hkk, rfl⟩ := hb
        rw [List.mem_range] at hkk
        have hwin : windowAt (List.replicate closes.length c) kk p =
            List.replicate p c := by
          rw [windowAt, List.drop_replicate, List.take_replicate]
          congr 1
          omega
        obtain ⟨p0, rfl⟩ : ∃ p0, p = p0 + 1 := ⟨p - 1, by omega⟩
        simp [hwin, listMax_replicate, listMin_replicate]
      have hfinal : kdj (List.replicate closes.length c) (List.replicate closes.length c)
          closes p ks ds =
          List.replicate (closes.length + 1 - p) (⟨50, 50, 50⟩ : KDJEntry) := by
        rw [kdj, if_neg hg]
        simp only [hrsv, kdjSmooth_50 ks hks, kdjSmooth_50 ds hds, zipWith_replicate_both]
        norm_num
      rw [hfinal] at he
      exact List.eq_of_mem_replicate he

/-- Witness for C9 on concrete flat inputs. -/
theorem kdj_flat_window_50_witness :
    ((0 < (kdjRsv [(3 : ℚ)] [(3 : ℚ)] [(7 : ℚ)] 1).length ∧
        listMax (windowAt [(3 : ℚ)] 0 1) = listMin (windowAt [(3 : ℚ)] 0 1)) ∧
      (kdjRsv [(3 : ℚ)] [(3 : ℚ)] [(7 : ℚ)] 1).getD 0 0 = 50) ∧
    kdjSmooth 2 50 [(70 : ℚ)] = [((70 : ℚ) + ((2 : ℚ) - 1) * 50) / 2] ∧
    ∀ e ∈ kdj (List.replicate 2 (3 : ℚ)) (List.replicate 2 (3 : ℚ)) [(1 : ℚ), 2] 1 1 1,
      e = ⟨50, 50, 50⟩ :=
  ⟨⟨⟨by decide, by decide⟩,
    kdj_flat_window_50.1 [3] [3] [7] 1 0 (by decide) (by decide)⟩,
    kdj_flat_window_50.2.1 2 70,
    kdj_flat_window_50.2.2 3 [1, 2] 1 1 1 (by decide) (by decide) (by decide)⟩

/-- C10: `rsi(S, p)` is empty exactly when `len(S) < p + 1` (one more point
than `sma`/`ema` require), and otherwise has exactly `len(S) - p` values. -/
theorem rsi_length_rule (p : ℕ) (S : List ℚ) :
    (S.length < p + 1 → rsi S p = []) ∧
    (p + 1 ≤ S.length → (rsi S p).length = S.length - p) := by
  constructor
  · intro h
    rw [rsi, if_pos h]
  · intro h
    rw [rsi, if_neg (by omega)]
    rw [List.length_map, List.length_range, rsiGains, List.length_map, rsiDiffs,
      List.length_zipWith, List.length_drop]
    omega

/-- Witness for C10 at `p = 2` with a short and a long series. -/
theorem rsi_length_rule_witness :
    (([(1 : ℚ), 2] : List ℚ).length < 2 + 1 ∧ rsi [(1 : ℚ), 2] 2 = []) ∧
    (2 + 1 ≤ ([(1 : ℚ), 2, 3, 4] : List ℚ).length ∧
      (rsi [(1 : ℚ), 2, 3, 4] 2).length = ([(1 : ℚ), 2, 3, 4] : List ℚ).length - 2) :=
  ⟨⟨by decide, (rsi_length_rule 2 [1, 2]).1 (by decide)⟩,
    ⟨by decide, (rsi_length_rule 2 [1, 2, 3, 4]).2 (by decide)⟩⟩

/-! ### Theorems for claims C1 – C6 -/

/-- C1: the claim that the user-expression `/` resolves division by zero to
`0`, making the condition `1/0 > 0` false, does not hold on the code: the
`/` entry of the `OPERATORS` table would indeed give `OPERATORS_div 1 0 =
0`, but that table is dead code.  The path actually taken (`safeEval`,
host JavaScript semantics) gives `1/0 = Infinity`, so the condition
evaluates to `true` (third conjunct, via a `buy =` line); and the bare
script `"1/0 > 0"`, containing no `=`, is never evaluated at all — both
signals come back `false` with no error without any division being
performed (fourth conjunct). -/
theorem divide_by_zero_dead_table :
    OPERATORS_div 1 0 = 0 ∧
    safeEval "1/0 > 0" = .bool true ∧
    execute "buy = 1/0 > 0" ctxA = ⟨.bool true, .bool false, .undefined, none⟩ ∧
    execute "1/0 > 0" ctxA = ⟨.bool false, .bool false, .undefined, none⟩ :=
  ⟨by norm_num [OPERATORS_div], rfl, rfl, rfl⟩

/-- C2 counterexample: executing the unknown-function script `"foo(5) > 1"`
returns `error = none`, not a populated error as the claim asserts. -/
theorem unknown_function_error_is_none :
    (execute "foo(5) > 1" ctxA).error = none := rfl

/-- C2 (amended): executing `"foo(5) > 1"` returns both signals `false`
with `error = none` for every context — the line contains no `=`, so
`evaluateScript` never evaluates it — and `execute` is a total function,
never raising to the caller. -/
theorem unknown_function_silent :
    ∀ ctx : ScriptContext,
      execute "foo(5) > 1" ctx = ⟨.bool false, .bool false, .undefined, none⟩ :=
  fun _ => rfl

/-- C3: in a context whose 14-period RSI over the historical prices is
exactly `25` (first conjunct), executing the preset buy script
`"rsi(14) < 30"` returns `buySignal = false`, not `true`: the line
contains no `=`, so `evaluateScript` never evaluates any expression (and
`rsi(14)` would in any case pass `14` as the price series argument, never
the context's history). -/
theorem rsi_buy_script_gives_false :
    latest (rsi pricesRsi25 14) = some 25 ∧
    execute "rsi(14) < 30" ctxRsi25 = ⟨.bool false, .bool false, .undefined, none⟩ :=
  ⟨by norm_num [pricesRsi25, rsi, rsiAvgGain, rsiAvgLoss, rsiGains, rsiLosses,
      rsiDiffs, windowAt, latest, List.range_succ], rfl⟩

/-- C4: the claim that `==`/`!=` compare with tolerance `1e-4` does not
hold on the code: the epsilon entries of the `OPERATORS` table are dead
code.  A `==` reaching `safeEval` is exact JavaScript equality, so
`1 == 1.00005` evaluates to `false` although `|1 - 1.00005| < 1e-4`
(first two conjuncts); and a top-level `buy = 1 == 1.00005` line is
truncated at the second `=` by the `split('=')[1]` of `evaluateScript`,
leaving the truthy number `1` as the signal (third conjunct). -/
theorem epsilon_equality_dead_table :
    OPERATORS_eq 1 (100005 / 100000) = true ∧
    safeEval "1 == 1.00005" = .bool false ∧
    execute "buy = 1 == 1.00005" ctxA = ⟨.num (.fin 1), .bool false, .undefined, none⟩ :=
  ⟨by
    have h : |(1 : ℚ) - 100005 / 100000| = 1 / 20000 := by
      rw [abs_of_nonpos (by norm_num)]
      norm_num
    simp only [OPERATORS_eq, h]
    norm_num,
    by simp +decide [safeEval, sanitize, jsEvalString, tokenizeF, scanNum,
      readDigitsCnt, isAllowedC, isDigitC, isSpaceC, digitVal, parseF, opAtLevel,
      applyBin, looseEq, looseEqNum, jeqb],
    rfl⟩

/-- C5: the result of `execute` never depends on the contents of the
context's `indicatorCache` field — the parser never reads or writes it —
so an evaluation against one context can never reuse an indicator value
cached during an earlier evaluation against another: each result is a
function of the context's own quote and history data only. -/
theorem execute_no_cache_leak :
    ∀ (s : String) (c : ScriptContext) (x y : List (String × JSVal)),
      execute s { c with indicatorCache := x } =
        execute s { c with indicatorCache := y } := by
  intro s c x y
  rw [execute_cacheIrrel s c x, execute_cacheIrrel s c y]

/-- C6 counterexample: the claim's universal "propagates to a false
condition for that script" fails for a script that wraps the missing
indicator value in an array literal: `"buy = [rsi(prices, 5)]"` against a
one-point history substitutes `[undefined]`, which the sanitizer strips to
the empty array literal `[]` — a truthy value — so the returned
`buySignal` is the truthy empty array, not a false condition. -/
theorem insufficient_data_array_literal_truthy :
    execute "buy = [rsi(prices, 5)]" ctxShort =
      ⟨.arr [], .bool false, .undefined, none⟩ ∧
    toBool (execute "buy = [rsi(prices, 5)]" ctxShort).buySignal = true :=
  ⟨rfl, rfl⟩

/-- C6 (amended): an indicator given fewer history points than it requires
returns the empty series — proved for the whole library (`sma`, `ema`,
`bollingerBands` for `len < p`; `rsi` for `len < p + 1`; `kdj` and
`williamsR` when any input is shorter than `p`; `macd` when either EMA is
starved) — and `latest` of the empty `rsi` series is undefined (`none`).
The evaluator's `sma`/`ema`/`rsi` builtins (the wrappers the claim cites)
then yield `undefined` for every such series and period; the sanitizer
erases the substituted `undefined` text wherever it stands, so evaluation
never crashes; and a condition comparing the missing value with any of the
six comparison operators against any continuation whatsoever evaluates to
`false` — which an `execute` run of `"buy = rsi(prices, 5) < 30"` against
a one-point history exhibits end to end.  (The propagation-to-false is a
property of comparison conditions, not of literally every script: see the
array-literal counterexample.) -/
theorem insufficient_data_amended :
    (∀ (S : List ℚ) (p : ℕ) (sd : ℚ), S.length < p →
      sma S p = [] ∧ ema S p = [] ∧ bollingerBands S p sd = []) ∧
    (∀ (S : List ℚ) (p : ℕ), S.length < p + 1 →
      rsi S p = [] ∧ latest (rsi S p) = none) ∧
    (∀ (h l c : List ℚ) (p ks ds : ℕ), h.length < p ∨ l.length < p ∨ c.length < p →
      kdj h l c p ks ds = [] ∧ williamsR h l c p = []) ∧
    (∀ (S : List ℚ) (fp sp gp : ℕ), S.length < fp ∨ S.length < sp →
      macdSeries S fp sp gp = []) ∧
    (∀ (S : List ℚ) (p : ℕ), S.length < p + 1 →
      callBuiltin "rsi" [ratListToVal S, .num (.fin (p : ℚ))] = some .undefined) ∧
    (∀ (S : List ℚ) (p : ℕ), S.length < p →
      callBuiltin "sma" [ratListToVal S, .num (.fin (p : ℚ))] = some .undefined ∧
      callBuiltin "ema" [ratListToVal S, .num (.fin (p : ℚ))] = some .undefined) ∧
    (∀ s t : List Char, sanitize (s ++ "undefined".data ++ t) = sanitize (s ++ t)) ∧
    (∀ rest : String,
      safeEval ("undefined < " ++ rest) = .bool false ∧
      safeEval ("undefined > " ++ rest) = .bool false ∧
      safeEval ("undefined <= " ++ rest) = .bool false ∧
      safeEval ("undefined >= " ++ rest) = .bool false ∧
      safeEval ("undefined == " ++ rest) = .bool false ∧
      safeEval ("undefined != " ++ rest) = .bool false) ∧
    execute "buy = rsi(prices, 5) < 30" ctxShort =
      ⟨.bool false, .bool false, .undefined, none⟩ := by
  refine ⟨?_, ?_, ?_, ?_, ?_, ?_, ?_, ?_, rfl⟩
  · intro S p sd h
    exact ⟨by rw [sma, if_pos h], ema_empty_of_short S p h,
      by rw [bollingerBands, if_pos h]⟩
  · intro S p h
    refine ⟨by rw [rsi, if_pos h], ?_⟩
    rw [rsi, if_pos h]
    rfl
  · intro h l c p ks ds hg
    exact ⟨by rw [kdj, if_pos hg], by rw [williamsR, if_pos hg]⟩
  · intro S fp sp gp h
    rcases h with h | h
    · rw [macdSeries]
      simp [ema_empty_of_short S fp h]
    · rw [macdSeries]
      simp [ema_empty_of_short S sp h]
  · intro S p h
    have hr : rsi S p = [] := by rw [rsi, if_pos h]
    simp +decide [callBuiltin, getArg, asSeries_ratList, periodOr, asPeriod_natCast,
      hr, latest, optValNum]
  · intro S p h
    have hs : sma S p = [] := by rw [sma, if_pos h]
    have he : ema S p = [] := ema_empty_of_short S p h
    constructor <;>
      simp +decide [callBuiltin, getArg, asSeries_ratList, periodReq, asPeriod_natCast,
        hs, he, latest, optValNum]
  · intro s t
    simp +decide [sanitize, List.filter_append]
  · intro rest
    exact ⟨safeEval_undefined_lt rest, safeEval_undefined_gt rest,
      safeEval_undefined_le rest, safeEval_undefined_ge rest,
      safeEval_undefined_eq rest, safeEval_undefined_ne rest⟩

/-- Witness for C6 at the one-point history `[12]`, period `5`, Bollinger
width `2` and the continuation `"30"`. -/
theorem insufficient_data_amended_witness :
    (([(12 : ℚ)] : List ℚ).length < 5 ∧
      sma [(12 : ℚ)] 5 = [] ∧ ema [(12 : ℚ)] 5 = [] ∧
      bollingerBands [(12 : ℚ)] 5 2 = []) ∧
    (([(12 : ℚ)] : List ℚ).length < 5 + 1 ∧
      rsi [(12 : ℚ)] 5 = [] ∧ latest (rsi [(12 : ℚ)] 5) = none) ∧
    callBuiltin "rsi" [ratListToVal [(12 : ℚ)], .num (.fin ((5 : ℕ) : ℚ))] =
      some .undefined ∧
    safeEval ("undefined < " ++ "30") = .bool false ∧
    execute "buy = rsi(prices, 5) < 30" ctxShort =
      ⟨.bool false, .bool false, .undefined, none⟩ :=
  ⟨⟨by decide, insufficient_data_amended.1 [12] 5 2 (by decide)⟩,
    ⟨by decide, insufficient_data_amended.2.1 [12] 5 (by decide)⟩,
    insufficient_data_amended.2.2.2.2.1 [12] 5 (by decide),
    (insufficient_data_amended.2.2.2.2.2.2.2.1 "30").1,
    insufficient_data_amended.2.2.2.2.2.2.2.2⟩

end Watchstock
